import Mathlib

/-!
Shallow embedding of the balloonsChallenge ingestion pipeline.

The repository contains two variants of the frontend (src/unnamed/part_000
and src/unnamed/part_001) that share identical `parseRow` / `fetchHour`
implementations, plus two Vercel proxy handlers
(src/my-balloons/api/wb/[...path].ts and the query-based handler at the end
of src/unnamed/part_000).

JavaScript numbers are IEEE doubles. `parseRow` performs no arithmetic on
them — only comparisons (`<`, `>`, `>=`, `<=`) and pass-through — so every
behaviour relevant here is captured exactly by modelling a JS number as
either an exact rational (every finite double is a rational and double
comparison agrees with rational comparison), NaN, or one of the two
infinities, with the IEEE comparison semantics: NaN compares false to
everything.
-/

namespace Balloons

/-- Model of a JavaScript number: a finite value (exact rational), NaN, or
positive/negative infinity. -/
inductive JsNum where
  | finite (q : ℚ)
  | nan
  | inf
  | negInf
deriving DecidableEq

namespace JsNum

/-- IEEE `<` on JS numbers: NaN compares false to everything. -/
def lt : JsNum → JsNum → Bool
  | finite a, finite b => decide (a < b)
  | finite _, inf => true
  | negInf, finite _ => true
  | negInf, inf => true
  | _, _ => false

/-- IEEE `<=` on JS numbers: NaN compares false to everything. -/
def le : JsNum → JsNum → Bool
  | finite a, finite b => decide (a ≤ b)
  | finite _, inf => true
  | negInf, finite _ => true
  | negInf, inf => true
  | negInf, negInf => true
  | inf, inf => true
  | _, _ => false

/-- IEEE `>` on JS numbers, as used in the source (`lat > 90`). -/
def gt (a b : JsNum) : Bool := lt b a

/-- IEEE `>=` on JS numbers, as used in the source (`alt >= 0`). -/
def ge (a b : JsNum) : Bool := le b a

/-- Mathematical interval membership used to state the spec claims: a JS
number lies in the closed interval only when it is a finite value in that
interval (NaN and the infinities lie outside every interval). -/
def inIcc (x : JsNum) (a b : ℚ) : Bool :=
  match x with
  | finite q => decide (a ≤ q) && decide (q ≤ b)
  | _ => false

end JsNum

/-- Model of an untyped JavaScript value, as far as the validator and the
fetcher inspect one: numbers, strings, booleans, null, undefined, arrays,
and plain objects (an association list of fields). -/
inductive JsVal where
  | num (n : JsNum)
  | str (s : String)
  | boolean (b : Bool)
  | null
  | undef
  | arr (elems : List JsVal)
  | obj (fields : List (String × JsVal))

/-- Embedding of `typeof v === "number"`. -/
def JsVal.isNumber : JsVal → Bool
  | JsVal.num _ => true
  | _ => false

/-- The validated point type: `type Point = { lat; lon; alt_km: number | null }`. -/
structure Point where
  lat : JsNum
  lon : JsNum
  alt_km : Option JsNum
deriving DecidableEq

/-- Embedding of `const alt_km = typeof alt === "number" && alt >= 0 && alt <= 40 ? alt : null`
from `parseRow`. -/
def parseAlt (alt : JsVal) : Option JsNum :=
  match alt with
  | JsVal.num a => if a.ge (JsNum.finite 0) && a.le (JsNum.finite 40) then some a else none
  | _ => none

/-- Embedding of `parseRow` (identical in src/unnamed/part_000 lines 27-34 and
src/unnamed/part_001 lines 39-46). JS array destructuring
`const [lat, lon, alt] = row` yields `undefined` past the end of the array,
which `List.getD _ JsVal.undef` reproduces. -/
def parseRow (row : JsVal) : Option Point :=
  match row with
  | JsVal.arr elems =>
    if elems.length < 2 then none
    else
      match elems.getD 0 JsVal.undef, elems.getD 1 JsVal.undef with
      | JsVal.num la, JsVal.num lo =>
        if la.lt (JsNum.finite (-90)) || la.gt (JsNum.finite 90)
            || lo.lt (JsNum.finite (-180)) || lo.gt (JsNum.finite 180) then
          none
        else
          some { lat := la, lon := lo, alt_km := parseAlt (elems.getD 2 JsVal.undef) }
      | _, _ => none
  | _ => none

example :
    parseRow (JsVal.arr [JsVal.num (JsNum.finite 45), JsVal.num (JsNum.finite (-122)),
      JsVal.num (JsNum.finite 5)]) =
    some { lat := JsNum.finite 45, lon := JsNum.finite (-122),
           alt_km := some (JsNum.finite 5) } := by decide

example :
    parseRow (JsVal.arr [JsVal.num (JsNum.finite 45), JsVal.num (JsNum.finite (-122)),
      JsVal.num (JsNum.finite 99)]) =
    some { lat := JsNum.finite 45, lon := JsNum.finite (-122), alt_km := none } := by decide

example :
    parseRow (JsVal.arr [JsVal.num (JsNum.finite 200), JsVal.num (JsNum.finite 0)]) = none := by
  decide

example :
    parseRow (JsVal.arr [JsVal.num JsNum.nan, JsVal.num (JsNum.finite 0)]) =
    some { lat := JsNum.nan, lon := JsNum.finite 0, alt_km := none } := by decide

/-- Field lookup on a JS object, embedding property access `data.points`
(JS objects cannot carry duplicate keys, so first-match lookup is exact). -/
def lookupField (name : String) : List (String × JsVal) → Option JsVal
  | [] => none
  | (k, v) :: rest => if k = name then some v else lookupField name rest

/-- The object-field name the fetcher probes: `(data as any)?.points`. -/
def pointsKey : String := "points"

/-- Embedding of the row-extraction step of `fetchHour`:
`Array.isArray(data) ? data : Array.isArray(data?.points) ? data.points : []`.
Optional chaining on any non-object (and property access on primitives)
yields `undefined`, which is not an array, so every non-array, non-object
shape falls through to the empty list. -/
def extractRows (data : JsVal) : List JsVal :=
  match data with
  | JsVal.arr elems => elems
  | JsVal.obj fields =>
    match lookupField pointsKey fields with
    | some (JsVal.arr elems) => elems
    | _ => []
  | _ => []

/-- Embedding of `rows.map(parseRow).filter(Boolean)` applied to a decoded
body: the per-slot point list that `fetchHour` resolves with. -/
def pointsOfData (data : JsVal) : List Point :=
  (extractRows data).filterMap parseRow

/-- An HTTP response as `fetchHour` observes it: a status code and a decoded
JSON body. -/
structure Response where
  status : ℕ
  body : JsVal

/-- The Fetch API's `res.ok`: true exactly when the status is 200..299. -/
def Response.ok (r : Response) : Bool :=
  decide (200 ≤ r.status) && decide (r.status ≤ 299)

/-- Embedding of `fetchHour` (src/unnamed/part_001 lines 48-59), from the
point where the response is available: on a non-ok status it throws
(`Except.error`) the message built from the hour label and the status;
otherwise it decodes the body and resolves with the validated rows. -/
def fetchHour (hh : String) (res : Response) : Except String (List Point) :=
  if res.ok then Except.ok (pointsOfData res.body)
  else Except.error ("WB " ++ hh ++ ".json HTTP " ++ toString res.status)

example :
    fetchHour ("00") { status := 200, body := JsVal.obj [(pointsKey,
      JsVal.arr [JsVal.arr [JsVal.num (JsNum.finite 1), JsVal.num (JsNum.finite 2)]])] } =
    Except.ok [{ lat := JsNum.finite 1, lon := JsNum.finite 2, alt_km := none }] := rfl

example :
    fetchHour ("07") { status := 500, body := JsVal.null } =
    Except.error ("WB 07.json HTTP 500") := rfl

example : fetchHour ("01") { status := 204, body := JsVal.str ("x") } = Except.ok [] := rfl

/-!
Orchestrator, progressive variant (`useWindborne`, src/unnamed/part_001
lines 61-106). The observable state is the four React state cells plus the
effect-local `completed` counter. All 24 fetches are dispatched at once;
each settlement runs on the single cooperative thread, so a cycle is a fold
of per-slot settlement steps over the list of slots in whatever order the
fetches settle. A slot's outcome is `some points` when its `fetchHour`
resolved and `none` when it rejected (the `.catch` branch only logs).
-/

/-- State of the progressive `useWindborne` hook: the four state cells and
the effect-local `completed` counter. -/
structure WBState where
  loading : Bool
  error : String
  byHour : List (List Point)
  progress : ℚ
  completed : ℕ

/-- State at the start of a cycle: the effect has run
`setLoading(true); setError(""); setByHour(Array.from({length: 24}, () => [])); setProgress(0)`
and `completed = 0` (this also matches the `useState` initial values). -/
def initState : WBState :=
  { loading := true, error := "", byHour := List.replicate 24 [],
    progress := 0, completed := 0 }

/-- Embedding of one fetch settlement for slot `idx` under cancellation flag
`cancelled`: the `.then` branch checks `if (cancelled) return` before
writing the slot (`next[idx] = points`), the `.catch` branch only logs, and
the `.finally` branch checks `if (cancelled) return` before incrementing
`completed`, recomputing `progress = completed / 24`, and clearing
`loading` when `completed` reaches 24. -/
def settleFull (o : Fin 24 → Option (List Point)) (cancelled : Bool)
    (s : WBState) (idx : Fin 24) : WBState :=
  let s1 :=
    match o idx with
    | some pts => if cancelled then s else { s with byHour := s.byHour.set idx.val pts }
    | none => s
  if cancelled then s1
  else
    { s1 with
      completed := s1.completed + 1,
      progress := ((s1.completed + 1 : ℕ) : ℚ) / 24,
      loading := if s1.completed + 1 = 24 then false else s1.loading }

/-- A settlement in a live (never cancelled) cycle. -/
def settle (o : Fin 24 → Option (List Point)) : WBState → Fin 24 → WBState :=
  settleFull o false

/-- A full run of the progressive orchestrator: settlements applied in the
order the fetches happened to settle. -/
def runCycle (o : Fin 24 → Option (List Point)) (order : List (Fin 24)) : WBState :=
  order.foldl (settle o) initState

/-- State of the `Promise.all` variant of `useWindborne`
(src/unnamed/part_000 lines 49-83): it has no progress cell. -/
structure WBState0 where
  loading : Bool
  error : String
  byHour : List (List Point)

/-- State of the `Promise.all` variant from cycle start until the batch
resolves: `useState<Point[][]>([])` leaves `byHour` empty, and the effect
only runs `setLoading(true); setError("")` before awaiting. -/
def initState0 : WBState0 :=
  { loading := true, error := "", byHour := [] }

/-- Embedding of a completed, uncancelled cycle of the `Promise.all`
variant: each hour's task catches its own failure and resolves with `[]`,
so `Promise.all` always resolves with the per-slot lists in hour order;
then `setByHour(all)` and finally `setLoading(false)` run. `error` is never
written after the initial reset because the inner catches keep the outer
`try` from throwing. -/
def runCycle0 (o : Fin 24 → Option (List Point)) : WBState0 :=
  { loading := false, error := "",
    byHour := (List.finRange 24).map (fun i => (o i).getD []) }

/-- The byHour update performed by one settlement, in isolation: a
successful slot writes its own index, a failed slot leaves the array
alone. -/
def settleSlot (o : Fin 24 → Option (List Point)) (L : List (List Point))
    (idx : Fin 24) : List (List Point) :=
  match o idx with
  | some pts => L.set idx.val pts
  | none => L

/-!
Proxy handlers. Both are pure relays: given the inbound request data and
the upstream response, they produce the proxy response. The headers list
records the `res.setHeader` calls; no handler sets the same header twice.
-/

/-- The upstream response as the handlers observe it: status, optional
content-type header, and raw body bytes. -/
structure UpstreamResp where
  status : ℕ
  contentType : Option String
  body : List ℕ

/-- The response a handler sends back. -/
structure HttpResp where
  status : ℕ
  headers : List (String × String)
  body : List ℕ

/-- Header lookup on a handler response. -/
def getHeader (r : HttpResp) (name : String) : Option String :=
  match r.headers.find? (fun kv => kv.1 = name) with
  | some kv => some kv.2
  | none => none

/-- Header name `Content-Type`. -/
def hdrContentType : String := "Content-Type"

/-- Header name `Access-Control-Allow-Origin`. -/
def hdrAllowOrigin : String := "Access-Control-Allow-Origin"

/-- Header name `Access-Control-Allow-Methods`. -/
def hdrAllowMethods : String := "Access-Control-Allow-Methods"

/-- Header name `Access-Control-Allow-Headers`. -/
def hdrAllowHeaders : String := "Access-Control-Allow-Headers"

/-- Header name `Cache-Control`. -/
def hdrCacheControl : String := "Cache-Control"

/-- Header name `CDN-Cache-Control`. -/
def hdrCdnCacheControl : String := "CDN-Cache-Control"

/-- The shared cache directive `const cc = "max-age=0, s-maxage=60, stale-while-revalidate=300"`. -/
def ccValue : String := "max-age=0, s-maxage=60, stale-while-revalidate=300"

/-- The default content type `"application/json"`. -/
def appJson : String := "application/json"

/-- The string `"OPTIONS"`. -/
def optionsMethod : String := "OPTIONS"

/-- The string `"*"`. -/
def starValue : String := "*"

/-- The string `"GET, OPTIONS"`. -/
def getOptionsValue : String := "GET, OPTIONS"

/-- Embedding of the path-based proxy handler
(src/my-balloons/api/wb/[...path].ts): an `OPTIONS` request short-circuits
with status 204, only the three CORS headers, and an empty body, without
consulting the upstream; every other request relays the upstream status and
body, sets `Content-Type` to the upstream's content-type or
`application/json` when absent, and attaches the CORS and two cache
headers. -/
def handlerPath (method : String) (upstream : UpstreamResp) : HttpResp :=
  if method = optionsMethod then
    { status := 204,
      headers := [(hdrAllowOrigin, starValue),
                  (hdrAllowMethods, getOptionsValue),
                  (hdrAllowHeaders, hdrContentType)],
      body := [] }
  else
    { status := upstream.status,
      headers := [(hdrContentType, upstream.contentType.getD appJson),
                  (hdrAllowOrigin, starValue),
                  (hdrCacheControl, ccValue),
                  (hdrCdnCacheControl, ccValue)],
      body := upstream.body }

/-- Embedding of the query-based proxy handler (the handler at
src/unnamed/part_000 lines 331-345): no `OPTIONS` short-circuit; it always
relays the upstream status and body and attaches the same header policy as
the path-based variant. -/
def handlerQuery (upstream : UpstreamResp) : HttpResp :=
  { status := upstream.status,
    headers := [(hdrContentType, upstream.contentType.getD appJson),
                (hdrAllowOrigin, starValue),
                (hdrCacheControl, ccValue),
                (hdrCdnCacheControl, ccValue)],
    body := upstream.body }

/-! Supporting lemmas about the progressive orchestrator. -/

theorem settle_error_eq (o : Fin 24 → Option (List Point)) (s : WBState) (idx : Fin 24) :
    (settle o s idx).error = s.error := by
  cases h : o idx <;> simp [settle, settleFull, h]

theorem settle_completed_eq (o : Fin 24 → Option (List Point)) (s : WBState) (idx : Fin 24) :
    (settle o s idx).completed = s.completed + 1 := by
  cases h : o idx <;> simp [settle, settleFull, h]

theorem settle_progress_eq (o : Fin 24 → Option (List Point)) (s : WBState) (idx : Fin 24) :
    (settle o s idx).progress = ((s.completed + 1 : ℕ) : ℚ) / 24 := by
  cases h : o idx <;> simp [settle, settleFull, h]

theorem settle_loading_eq (o : Fin 24 → Option (List Point)) (s : WBState) (idx : Fin 24) :
    (settle o s idx).loading = if s.completed + 1 = 24 then false else s.loading := by
  cases h : o idx <;> simp [settle, settleFull, h]

theorem settle_byHour_eq (o : Fin 24 → Option (List Point)) (s : WBState) (idx : Fin 24) :
    (settle o s idx).byHour = settleSlot o s.byHour idx := by
  cases h : o idx <;> simp [settle, settleFull, settleSlot, h]

theorem foldl_settle_error (o : Fin 24 → Option (List Point)) :
    ∀ (order : List (Fin 24)) (s : WBState),
      (order.foldl (settle o) s).error = s.error := by
  intro order
  induction order with
  | nil => intro s; rfl
  | cons a rest ih => intro s; rw [List.foldl_cons, ih, settle_error_eq]

theorem foldl_settle_completed (o : Fin 24 → Option (List Point)) :
    ∀ (order : List (Fin 24)) (s : WBState),
      (order.foldl (settle o) s).completed = s.completed + order.length := by
  intro order
  induction order with
  | nil => intro s; simp
  | cons a rest ih =>
    intro s
    rw [List.foldl_cons, ih, settle_completed_eq, List.length_cons]
    omega

theorem foldl_settle_byHour (o : Fin 24 → Option (List Point)) :
    ∀ (order : List (Fin 24)) (s : WBState),
      (order.foldl (settle o) s).byHour = order.foldl (settleSlot o) s.byHour := by
  intro order
  induction order with
  | nil => intro s; rfl
  | cons a rest ih => intro s; rw [List.foldl_cons, List.foldl_cons, ih, settle_byHour_eq]

theorem foldl_settle_progress (o : Fin 24 → Option (List Point)) :
    ∀ (order : List (Fin 24)) (s : WBState),
      s.progress = (s.completed : ℚ) / 24 →
      (order.foldl (settle o) s).progress = ((order.foldl (settle o) s).completed : ℚ) / 24 := by
  intro order
  induction order with
  | nil => intro s h; exact h
  | cons a rest ih =>
    intro s h
    rw [List.foldl_cons]
    exact ih (settle o s a) (by rw [settle_progress_eq, settle_completed_eq])

theorem foldl_settle_loading (o : Fin 24 → Option (List Point)) :
    ∀ (order : List (Fin 24)) (s : WBState),
      (s.loading = false ↔ 24 ≤ s.completed) →
      ((order.foldl (settle o) s).loading = false ↔
        24 ≤ (order.foldl (settle o) s).completed) := by
  intro order
  induction order with
  | nil => intro s h; exact h
  | cons a rest ih =>
    intro s h
    rw [List.foldl_cons]
    apply ih (settle o s a)
    rw [settle_loading_eq, settle_completed_eq]
    by_cases hc : s.completed + 1 = 24
    · simp [hc]
    · rw [if_neg hc, h]
      omega

theorem settleSlot_length (o : Fin 24 → Option (List Point)) (L : List (List Point))
    (idx : Fin 24) : (settleSlot o L idx).length = L.length := by
  cases h : o idx <;> simp [settleSlot, h]

theorem foldl_settleSlot_length (o : Fin 24 → Option (List Point)) :
    ∀ (order : List (Fin 24)) (L : List (List Point)),
      (order.foldl (settleSlot o) L).length = L.length := by
  intro order
  induction order with
  | nil => intro L; rfl
  | cons a rest ih => intro L; rw [List.foldl_cons, ih, settleSlot_length]

theorem foldl_settleSlot_getElem (o : Fin 24 → Option (List Point)) (i : Fin 24) :
    ∀ (order : List (Fin 24)) (L : List (List Point)), L.length = 24 →
      (order.foldl (settleSlot o) L)[(i : ℕ)]? =
        if i ∈ order ∧ (o i).isSome then some ((o i).getD []) else L[(i : ℕ)]? := by
  intro order
  induction order with
  | nil => intro L hL; simp
  | cons a rest ih =>
    intro L hL
    rw [List.foldl_cons, ih (settleSlot o L a) (by rw [settleSlot_length]; exact hL)]
    by_cases h1 : i ∈ rest ∧ (o i).isSome
    · rw [if_pos h1, if_pos ⟨List.mem_cons_of_mem a h1.1, h1.2⟩]
    · rw [if_neg h1]
      by_cases h2 : i = a
      · subst h2
        cases ho : o i with
        | none => simp [settleSlot, ho]
        | some pts =>
          rw [if_pos ⟨List.mem_cons_self i rest, rfl⟩]
          simp only [settleSlot, ho, Option.getD_some]
          rw [List.getElem?_set_self (by rw [hL]; exact i.isLt)]
      · have hcond : ¬ (i ∈ a :: rest ∧ (o i).isSome) := by
          intro hc
          rcases List.mem_cons.mp hc.1 with hia | hir
          · exact h2 hia
          · exact h1 ⟨hir, hc.2⟩
        rw [if_neg hcond]
        cases ho : o a with
        | none => simp [settleSlot, ho]
        | some pts =>
          simp only [settleSlot, ho]
          exact List.getElem?_set_ne (fun hv => h2 (Fin.val_injective hv).symm)

theorem initState_byHour : initState.byHour = List.replicate 24 [] := rfl

/-- Any list of 24 distinct slots contains every slot: a completed cycle
settles every hour exactly once. -/
theorem all_mem_of_nodup_of_length {order : List (Fin 24)} (hnd : order.Nodup)
    (hlen : order.length = 24) : ∀ i : Fin 24, i ∈ order := by
  intro i
  have hcard : order.toFinset = Finset.univ := by
    apply Finset.eq_univ_of_card
    rw [List.toFinset_card_of_nodup hnd, hlen, Fintype.card_fin]
  rw [← List.mem_toFinset, hcard]
  exact Finset.mem_univ i

/-- Final byHour of a completed progressive cycle: slot i holds the fetched
list on success and stays the pre-filled empty list on failure, regardless
of settlement order. -/
theorem runCycle_byHour (o : Fin 24 → Option (List Point)) (order : List (Fin 24))
    (hall : ∀ i : Fin 24, i ∈ order) :
    (runCycle o order).byHour = (List.finRange 24).map (fun i => (o i).getD []) := by
  rw [runCycle, foldl_settle_byHour, initState_byHour]
  apply List.ext_getElem?
  intro n
  by_cases hn : n < 24
  · have hkey := foldl_settleSlot_getElem o ⟨n, hn⟩ order (List.replicate 24 []) (by simp)
    rw [show ((⟨n, hn⟩ : Fin 24) : ℕ) = n from rfl] at hkey
    rw [hkey]
    have hrhs : ((List.finRange 24).map (fun i => (o i).getD []))[n]? =
        some ((o ⟨n, hn⟩).getD []) := by
      rw [List.getElem?_map]
      rw [List.getElem?_eq_getElem (by simpa using hn)]
      simp
    rw [hrhs]
    cases ho : o ⟨n, hn⟩ with
    | none =>
      rw [if_neg (by simp)]
      rw [List.getElem?_replicate, if_pos hn]
      rfl
    | some pts => rw [if_pos ⟨hall ⟨n, hn⟩, rfl⟩]
  · rw [List.getElem?_eq_none_iff.mpr (by rw [foldl_settleSlot_length]; simpa using not_lt.mp hn),
      List.getElem?_eq_none_iff.mpr (by simpa using not_lt.mp hn)]

/-! Supporting lemmas about the row validator. -/

theorem parseAlt_some_inv {v : JsVal} {a : JsNum} (h : parseAlt v = some a) :
    (a.ge (JsNum.finite 0) && a.le (JsNum.finite 40)) = true := by
  cases v with
  | num b =>
    simp only [parseAlt] at h
    split at h
    · cases h
      assumption
    · cases h
  | str s => cases h
  | boolean b => cases h
  | null => cases h
  | undef => cases h
  | arr elems => cases h
  | obj fields => cases h

/-- Inversion of an accepted row: the four comparison guards were all false
and the stored altitude, when present, passed the code's altitude test. -/
theorem parseRow_some_inv {row : JsVal} {p : Point} (h : parseRow row = some p) :
    p.lat.lt (JsNum.finite (-90)) = false ∧ p.lat.gt (JsNum.finite 90) = false ∧
    p.lon.lt (JsNum.finite (-180)) = false ∧ p.lon.gt (JsNum.finite 180) = false ∧
    ∀ a, p.alt_km = some a →
      (a.ge (JsNum.finite 0) && a.le (JsNum.finite 40)) = true := by
  cases row with
  | arr elems =>
    simp only [parseRow] at h
    split at h
    · cases h
    · split at h
      · next la lo hv0 hv1 =>
        split at h
        · cases h
        · next hguard =>
          cases h
          simp only [Bool.not_eq_true, Bool.or_eq_false_iff] at hguard
          obtain ⟨⟨⟨h1, h2⟩, h3⟩, h4⟩ := hguard
          exact ⟨h1, h2, h3, h4, fun a ha => parseAlt_some_inv ha⟩
      · cases h
  | num n => cases h
  | str s => cases h
  | boolean b => cases h
  | null => cases h
  | undef => cases h
  | obj fields => cases h

/-- A JS number that passed both range comparisons is either NaN (which
compares false to everything) or a finite value inside the interval. -/
theorem coord_ok_of_guard {x : JsNum} {a b : ℚ} (h1 : x.lt (JsNum.finite a) = false)
    (h2 : x.gt (JsNum.finite b) = false) :
    x = JsNum.nan ∨ x.inIcc a b = true := by
  cases x with
  | nan => exact Or.inl rfl
  | finite q =>
    refine Or.inr ?_
    simp only [JsNum.lt, JsNum.gt, decide_eq_false_iff_not, not_lt] at h1 h2
    simp only [JsNum.inIcc, Bool.and_eq_true, decide_eq_true_eq]
    exact ⟨h1, h2⟩
  | inf => simp [JsNum.gt, JsNum.lt] at h2
  | negInf => simp [JsNum.lt] at h1

/-- A JS number that passed the code's altitude test is a finite value in
[0, 40]. -/
theorem alt_ok {a : JsNum} (h : (a.ge (JsNum.finite 0) && a.le (JsNum.finite 40)) = true) :
    a.inIcc 0 40 = true := by
  cases a with
  | finite q =>
    simp only [JsNum.ge, JsNum.le, Bool.and_eq_true, decide_eq_true_eq] at h
    simp only [JsNum.inIcc, Bool.and_eq_true, decide_eq_true_eq]
    exact h
  | nan => simp [JsNum.ge, JsNum.le] at h
  | inf => simp [JsNum.ge, JsNum.le] at h
  | negInf => simp [JsNum.ge, JsNum.le] at h

/-- A non-NaN JS number outside the interval trips at least one of the two
range comparisons. -/
theorem guard_of_outside {x : JsNum} {a b : ℚ} (hne : x ≠ JsNum.nan)
    (hic : x.inIcc a b = false) :
    (x.lt (JsNum.finite a) || x.gt (JsNum.finite b)) = true := by
  cases x with
  | nan => exact absurd rfl hne
  | inf => simp [JsNum.gt, JsNum.lt]
  | negInf => simp [JsNum.lt]
  | finite q =>
    simp only [JsNum.inIcc, Bool.and_eq_false_iff, decide_eq_false_iff_not, not_le] at hic
    simp only [JsNum.lt, JsNum.gt, Bool.or_eq_true, decide_eq_true_eq]
    rcases hic with hq | hq
    · exact Or.inl hq
    · exact Or.inr hq

/-- A raw first or second element that forces rejection on range grounds:
a number that is not NaN and lies outside the interval (finite
out-of-range values and the two infinities). -/
def outsideRange (v : JsVal) (a b : ℚ) : Bool :=
  match v with
  | JsVal.num x => decide (x ≠ JsNum.nan) && !(x.inIcc a b)
  | _ => false

/-- The amended rejection condition of claim C1: not an array, or fewer
than two elements, or a non-numeric first or second element, or a non-NaN
first element outside [-90, 90], or a non-NaN second element outside
[-180, 180]. -/
def rejectCond (row : JsVal) : Bool :=
  match row with
  | JsVal.arr elems =>
    decide (elems.length < 2) ||
    !(elems.getD 0 JsVal.undef).isNumber ||
    !(elems.getD 1 JsVal.undef).isNumber ||
    outsideRange (elems.getD 0 JsVal.undef) (-90) 90 ||
    outsideRange (elems.getD 1 JsVal.undef) (-180) 180
  | _ => true

/-- Claim C1 (corrected). For every raw record that is not an array, or is
an array of length < 2, or whose first two elements are not both numbers,
or whose first element is a non-NaN number outside [-90, 90], or whose
second element is a non-NaN number outside [-180, 180], `parseRow` returns
null and produces no Point. (The amendment exempts NaN: a NaN latitude or
longitude also lies outside the range, but both range comparisons evaluate
false on NaN, so such a row is accepted, not rejected.) -/
theorem parseRow_rejects_invalid (row : JsVal) (h : rejectCond row = true) :
    parseRow row = none := by
  cases row with
  | num n => rfl
  | str s => rfl
  | boolean b => rfl
  | null => rfl
  | undef => rfl
  | obj fields => rfl
  | arr elems =>
    rw [parseRow]
    by_cases hlen : elems.length < 2
    · rw [if_pos hlen]
    · rw [if_neg hlen]
      cases hv0 : elems.getD 0 JsVal.undef with
      | num x =>
        cases hv1 : elems.getD 1 JsVal.undef with
        | num y =>
          simp only [rejectCond, hv0, hv1] at h
          rw [decide_eq_false hlen] at h
          simp only [JsVal.isNumber, Bool.not_true, Bool.false_or, Bool.or_eq_true] at h
          show (if (x.lt (JsNum.finite (-90)) || x.gt (JsNum.finite 90)
              || y.lt (JsNum.finite (-180)) || y.gt (JsNum.finite 180)) = true
            then (none : Option Point)
            else some { lat := x, lon := y,
                        alt_km := parseAlt (elems.getD 2 JsVal.undef) }) = none
          rcases h with h | h
          · -- the first element is a non-NaN number outside the latitude range
            rw [outsideRange, Bool.and_eq_true, decide_eq_true_eq, Bool.not_eq_true'] at h
            have hg := guard_of_outside h.1 h.2
            rw [if_pos (by
              simp only [Bool.or_eq_true] at hg ⊢
              tauto)]
          · -- the second element is a non-NaN number outside the longitude range
            rw [outsideRange, Bool.and_eq_true, decide_eq_true_eq, Bool.not_eq_true'] at h
            have hg := guard_of_outside h.1 h.2
            rw [if_pos (by
              simp only [Bool.or_eq_true] at hg ⊢
              tauto)]
        | str s => rfl
        | boolean b => rfl
        | null => rfl
        | undef => rfl
        | arr es => rfl
        | obj fs => rfl
      | str s => rfl
      | boolean b => rfl
      | null => rfl
      | undef => rfl
      | arr es => rfl
      | obj fs => rfl

/-- Witness for C1: the spec's own concrete case, raw record `[200, 0]`
(latitude out of range), satisfies the rejection condition and is
rejected. -/
theorem parseRow_rejects_invalid_witness :
    rejectCond (JsVal.arr [JsVal.num (JsNum.finite 200), JsVal.num (JsNum.finite 0)]) = true ∧
    parseRow (JsVal.arr [JsVal.num (JsNum.finite 200), JsVal.num (JsNum.finite 0)]) = none :=
  ⟨by decide, parseRow_rejects_invalid _ (by decide)⟩

/-- Counterexample to C1 as stated: NaN lies outside [-90, 90] (it is not a
number in the interval), yet `parseRow` accepts the record `[NaN, 0]` —
both comparisons `NaN < -90` and `NaN > 90` are false, so the guard never
fires and a Point with NaN latitude is produced. -/
theorem parseRow_accepts_nan_latitude :
    JsNum.nan.inIcc (-90) 90 = false ∧
    parseRow (JsVal.arr [JsVal.num JsNum.nan, JsVal.num (JsNum.finite 0)]) =
      some { lat := JsNum.nan, lon := JsNum.finite 0, alt_km := none } :=
  ⟨rfl, by decide⟩

/-- The claim's description of the altitude rule, stated independently of
the code: only a numeric third element within [0, 40] becomes the
altitude; everything else yields an absent altitude. -/
def altSpec (v : JsVal) : Option JsNum :=
  match v with
  | JsVal.num a => if a.inIcc 0 40 then some a else none
  | _ => none

theorem parseAlt_eq_altSpec (v : JsVal) : parseAlt v = altSpec v := by
  cases v with
  | num a =>
    cases a with
    | finite q =>
      simp only [parseAlt, altSpec, JsNum.ge, JsNum.le, JsNum.inIcc]
    | nan => rfl
    | inf => rfl
    | negInf => rfl
  | str s => rfl
  | boolean b => rfl
  | null => rfl
  | undef => rfl
  | arr es => rfl
  | obj fs => rfl

/-- Claim C2 (confirmed). A raw record whose first two elements are numbers
within the latitude/longitude ranges is always accepted, whatever follows:
the Point carries the given coordinates, and its altitude is present
exactly when the third element is a number within [0, 40] (absent,
non-numeric, NaN, infinite, or out-of-range third elements all yield an
absent altitude, never a rejection). -/
theorem parseRow_lenient_altitude (la lo : ℚ) (rest : List JsVal)
    (h1 : -90 ≤ la) (h2 : la ≤ 90) (h3 : -180 ≤ lo) (h4 : lo ≤ 180) :
    parseRow (JsVal.arr (JsVal.num (JsNum.finite la) :: JsVal.num (JsNum.finite lo) :: rest)) =
      some { lat := JsNum.finite la, lon := JsNum.finite lo,
             alt_km := altSpec (rest.getD 0 JsVal.undef) } := by
  have hred :
      parseRow (JsVal.arr (JsVal.num (JsNum.finite la) :: JsVal.num (JsNum.finite lo) :: rest)) =
      if ((JsNum.finite la).lt (JsNum.finite (-90)) || (JsNum.finite la).gt (JsNum.finite 90)
          || (JsNum.finite lo).lt (JsNum.finite (-180))
          || (JsNum.finite lo).gt (JsNum.finite 180)) = true
      then none
      else some { lat := JsNum.finite la, lon := JsNum.finite lo,
                  alt_km := parseAlt (rest.getD 0 JsVal.undef) } := by
    rw [parseRow]
    rw [if_neg (by simp)]
    rfl
  rw [hred]
  rw [if_neg (by
    simp only [JsNum.lt, JsNum.gt, Bool.or_eq_true, decide_eq_true_eq]
    push_neg
    exact ⟨⟨⟨h1, h2⟩, h3⟩, h4⟩)]
  rw [parseAlt_eq_altSpec]

/-- Witness for C2: the spec's concrete case `[45, -122, 99]` — valid
coordinates, altitude 99 out of range — is accepted with an absent
altitude. -/
theorem parseRow_lenient_altitude_witness :
    ((-90 : ℚ) ≤ 45 ∧ (45 : ℚ) ≤ 90 ∧ (-180 : ℚ) ≤ -122 ∧ (-122 : ℚ) ≤ 180) ∧
    parseRow (JsVal.arr (JsVal.num (JsNum.finite 45) :: JsVal.num (JsNum.finite (-122)) ::
        [JsVal.num (JsNum.finite 99)])) =
      some { lat := JsNum.finite 45, lon := JsNum.finite (-122),
             alt_km := altSpec (([JsVal.num (JsNum.finite 99)] : List JsVal).getD 0 JsVal.undef) } :=
  ⟨⟨by norm_num, by norm_num, by norm_num, by norm_num⟩,
   parseRow_lenient_altitude 45 (-122) [JsVal.num (JsNum.finite 99)]
     (by norm_num) (by norm_num) (by norm_num) (by norm_num)⟩

example : altSpec (([JsVal.num (JsNum.finite 99)] : List JsVal).getD 0 JsVal.undef) = none := by
  decide

/-- The concrete accepted row `[45, -122, 5]` used by several witnesses. -/
def rowEx : JsVal :=
  JsVal.arr [JsVal.num (JsNum.finite 45), JsVal.num (JsNum.finite (-122)),
    JsVal.num (JsNum.finite 5)]

/-- The Point produced from `rowEx`. -/
def pEx : Point :=
  { lat := JsNum.finite 45, lon := JsNum.finite (-122), alt_km := some (JsNum.finite 5) }

/-- Claim C4 (corrected). Every Point stored in a per-slot result list
satisfies: its latitude is either NaN or a finite number in [-90, 90], its
longitude is either NaN or a finite number in [-180, 180], and its
altitude, when present, is a finite number in [0, 40]. (The amendment
admits NaN coordinates: the claim's "for all possible raw inputs,
including non-finite numeric values" fails because NaN passes both range
comparisons; infinite coordinates are rejected and non-finite altitudes
are nulled out, so only NaN slips through, and only for lat/lon.) -/
theorem points_in_model_constrained (data : JsVal) (p : Point)
    (h : p ∈ pointsOfData data) :
    (p.lat = JsNum.nan ∨ p.lat.inIcc (-90) 90 = true) ∧
    (p.lon = JsNum.nan ∨ p.lon.inIcc (-180) 180 = true) ∧
    (∀ a, p.alt_km = some a → a.inIcc 0 40 = true) := by
  rw [pointsOfData] at h
  obtain ⟨row, hrow, hp⟩ := List.mem_filterMap.mp h
  obtain ⟨h1, h2, h3, h4, h5⟩ := parseRow_some_inv hp
  exact ⟨coord_ok_of_guard h1 h2, coord_ok_of_guard h3 h4, fun a ha => alt_ok (h5 a ha)⟩

/-- Witness for C4 at the spec's concrete case: a snapshot body containing
the single row `[45, -122, 5]`. -/
theorem points_in_model_constrained_witness :
    pEx ∈ pointsOfData (JsVal.arr [rowEx]) ∧
    ((pEx.lat = JsNum.nan ∨ pEx.lat.inIcc (-90) 90 = true) ∧
     (pEx.lon = JsNum.nan ∨ pEx.lon.inIcc (-180) 180 = true) ∧
     (∀ a, pEx.alt_km = some a → a.inIcc 0 40 = true)) :=
  ⟨by decide, points_in_model_constrained (JsVal.arr [rowEx]) pEx (by decide)⟩

/-- Counterexample to C4 as stated: the raw row `[0, NaN]` — whose second
element violates the longitude constraint — yields a Point that enters the
collection with a NaN longitude outside [-180, 180]. -/
theorem point_with_nan_longitude_enters :
    JsNum.nan.inIcc (-180) 180 = false ∧
    pointsOfData (JsVal.arr [JsVal.arr [JsVal.num (JsNum.finite 0), JsVal.num JsNum.nan]]) =
      [{ lat := JsNum.finite 0, lon := JsNum.nan, alt_km := none }] :=
  ⟨rfl, by decide⟩

/-- Encoding of the `alt_km` field back into a raw JS value: the number
itself when present, JS `null` when absent. -/
def altToJs : Option JsNum → JsVal
  | some a => JsVal.num a
  | none => JsVal.null

/-- A Point re-encoded as a raw row `[lat, lon, alt_km]`. -/
def pointToRow (p : Point) : JsVal :=
  JsVal.arr [JsVal.num p.lat, JsVal.num p.lon, altToJs p.alt_km]

/-- The key string `lat`. -/
def latKey : String := "lat"

/-- The key string `lon`. -/
def lonKey : String := "lon"

/-- The key string `alt_km`. -/
def altKey : String := "alt_km"

/-- A Point as the JS object value it actually is at runtime:
`{ lat, lon, alt_km }`. -/
def pointToJs (p : Point) : JsVal :=
  JsVal.obj [(latKey, JsVal.num p.lat), (lonKey, JsVal.num p.lon), (altKey, altToJs p.alt_km)]

/-- Counterexample to C6 as stated: `parseRow` accepts `[45, -122, 5]`
producing a Point, but re-running `parseRow` on that accepted output — the
Point value itself, a JS object — returns null (the object is not an
array), not the same Point. -/
theorem parseRow_not_idempotent_on_point_object :
    parseRow rowEx = some pEx ∧ parseRow (pointToJs pEx) = none :=
  ⟨by decide, rfl⟩

/-- Claim C6 (corrected). Round-trip stability holds for the accepted
output re-encoded as a raw row: if `parseRow` accepts a record and
produces Point `p`, then `parseRow [p.lat, p.lon, p.alt_km]` yields the
same Point `p`. (The amendment is forced because the literal reading —
feeding the Point object itself back to `parseRow` — returns null, the
validator only accepting arrays.) -/
theorem parseRow_roundtrip_on_reencoded_row (row : JsVal) (p : Point)
    (h : parseRow row = some p) : parseRow (pointToRow p) = some p := by
  obtain ⟨h1, h2, h3, h4, h5⟩ := parseRow_some_inv h
  obtain ⟨plat, plon, palt⟩ := p
  have hred : parseRow (pointToRow ⟨plat, plon, palt⟩) =
      if (plat.lt (JsNum.finite (-90)) || plat.gt (JsNum.finite 90)
          || plon.lt (JsNum.finite (-180)) || plon.gt (JsNum.finite 180)) = true
      then none
      else some { lat := plat, lon := plon, alt_km := parseAlt (altToJs palt) } := rfl
  rw [hred]
  rw [if_neg (by rw [h1, h2, h3, h4]; simp)]
  have halt : parseAlt (altToJs palt) = palt := by
    cases palt with
    | none => rfl
    | some a =>
      have := h5 a rfl
      simp only [altToJs, parseAlt, this, if_true]
  rw [halt]

/-- Witness for C6: the row `[45, -122, 5]` is accepted, and re-parsing
the re-encoded accepted Point yields the same Point. -/
theorem parseRow_roundtrip_witness :
    parseRow rowEx = some pEx ∧ parseRow (pointToRow pEx) = some pEx :=
  ⟨by decide, parseRow_roundtrip_on_reencoded_row rowEx pEx (by decide)⟩

/-- A concrete per-slot outcome assignment for witnesses: hour 3 fails,
every other hour resolves with one point. -/
def oEx : Fin 24 → Option (List Point) :=
  fun i => if i.val = 3 then none else some [pEx]

/-- Claim C3 (confirmed). Whatever subset of the 24 fetches fails, a full
ingestion cycle of the progressive orchestrator ends with
completedCount = 24, progress = 1, loading cleared without a surfaced
error, every failed slot holding the empty point list and every successful
slot holding its fetched point list. -/
theorem orchestrator_cycle_completes (o : Fin 24 → Option (List Point))
    (order : List (Fin 24)) (hlen : order.length = 24) (hnd : order.Nodup) :
    (runCycle o order).completed = 24 ∧
    (runCycle o order).progress = 1 ∧
    (runCycle o order).loading = false ∧
    (runCycle o order).error = "" ∧
    (runCycle o order).byHour = (List.finRange 24).map (fun i => (o i).getD []) := by
  have hall := all_mem_of_nodup_of_length hnd hlen
  have hcomp : (runCycle o order).completed = 24 := by
    rw [runCycle, foldl_settle_completed]
    simp [initState, hlen]
  refine ⟨hcomp, ?_, ?_, ?_, runCycle_byHour o order hall⟩
  · have hp := foldl_settle_progress o order initState (by simp [initState])
    rw [runCycle] at hcomp ⊢
    rw [hp, hcomp]
    norm_num
  · have hl := foldl_settle_loading o order initState (by simp [initState])
    rw [runCycle] at hcomp ⊢
    exact hl.mpr (by simp [hcomp])
  · rw [runCycle, foldl_settle_error]
    rfl

/-- Witness for C3: the in-order settlement of `oEx` (hour 3 fails, the
others succeed) completes with full progress and no error. -/
theorem orchestrator_cycle_completes_witness :
    (List.finRange 24).length = 24 ∧ (List.finRange 24).Nodup ∧
    ((runCycle oEx (List.finRange 24)).completed = 24 ∧
     (runCycle oEx (List.finRange 24)).progress = 1 ∧
     (runCycle oEx (List.finRange 24)).loading = false ∧
     (runCycle oEx (List.finRange 24)).error = "" ∧
     (runCycle oEx (List.finRange 24)).byHour =
       (List.finRange 24).map (fun i => (oEx i).getD [])) :=
  ⟨by simp, by decide,
   orchestrator_cycle_completes oEx (List.finRange 24) (by simp) (by decide)⟩

/-- Claim C5 (corrected). In the progressive variant, byHour has exactly
24 entries at every observable moment of a cycle (after any prefix of
settlements, in any order, starting from the pre-filled initial state).
In the `Promise.all` variant, however, byHour starts as the empty array
(0 entries) and only acquires its 24 entries when the whole batch
resolves, so the claim fails for that variant mid-cycle. -/
theorem byHour_shape_invariant :
    (∀ (o : Fin 24 → Option (List Point)) (order : List (Fin 24)),
      ((order.foldl (settle o) initState).byHour).length = 24) ∧
    initState0.byHour.length = 0 ∧
    (∀ o : Fin 24 → Option (List Point), (runCycle0 o).byHour.length = 24) := by
  refine ⟨?_, rfl, ?_⟩
  · intro o order
    rw [foldl_settle_byHour, foldl_settleSlot_length, initState_byHour, List.length_replicate]
  · intro o
    simp [runCycle0]

/-- Counterexample to C5 as stated: at cycle start of the `Promise.all`
variant — an observable moment, rendered until the batch resolves — byHour
has 0 entries, not 24. -/
theorem promiseAll_variant_starts_empty : initState0.byHour.length ≠ 24 := by decide

theorem settleFull_cancelled_eq (o : Fin 24 → Option (List Point)) (s : WBState)
    (idx : Fin 24) : settleFull o true s idx = s := by
  cases h : o idx <;> simp [settleFull, h]

/-- Claim C7 (confirmed). Once the cancellation flag is set, every later
fetch settlement — one or any sequence of them, success or failure — is a
no-op on the state: byHour, progress, loading and error are all untouched,
because both the success path and the finally path check the flag before
writing (and the failure path only logs). -/
theorem cancelled_settlements_mutate_nothing :
    (∀ (o : Fin 24 → Option (List Point)) (s : WBState) (idx : Fin 24),
      settleFull o true s idx = s) ∧
    (∀ (o : Fin 24 → Option (List Point)) (s : WBState) (order : List (Fin 24)),
      order.foldl (settleFull o true) s = s) := by
  refine ⟨settleFull_cancelled_eq, ?_⟩
  intro o s order
  induction order generalizing s with
  | nil => rfl
  | cons a rest ih =>
    rw [List.foldl_cons, settleFull_cancelled_eq]
    exact ih s

/-- Claim C8 (confirmed). On a successful (2xx) response, `fetchHour`
validates the records of a bare array body, or of the `points` field when
that field is an array, and returns the empty list for every other decoded
shape without failing; it fails exactly on a non-success HTTP status, with
the message carrying the slot label and status code. -/
theorem fetchHour_shape_tolerant (hh : String) (st : ℕ) (body : JsVal) :
    fetchHour hh { status := st, body := body } =
      if 200 ≤ st ∧ st ≤ 299 then
        Except.ok (match body with
          | JsVal.arr elems => elems.filterMap parseRow
          | JsVal.obj fields =>
            match lookupField pointsKey fields with
            | some (JsVal.arr elems) => elems.filterMap parseRow
            | _ => []
          | _ => [])
      else Except.error ("WB " ++ hh ++ ".json HTTP " ++ toString st) := by
  by_cases hok : 200 ≤ st ∧ st ≤ 299
  · rw [if_pos hok]
    have hb : Response.ok { status := st, body := body } = true := by
      simp only [Response.ok, Bool.and_eq_true, decide_eq_true_eq]
      exact hok
    rw [fetchHour, if_pos hb]
    congr 1
    cases body with
    | obj fields =>
      cases hl : lookupField pointsKey fields with
      | none => simp [pointsOfData, extractRows, hl]
      | some v => cases v <;> simp [pointsOfData, extractRows, hl]
    | num n => rfl
    | str s => rfl
    | boolean b => rfl
    | null => rfl
    | undef => rfl
    | arr elems => rfl
  · rw [if_neg hok]
    have hb : Response.ok { status := st, body := body } = false := by
      simp only [Response.ok, Bool.and_eq_false_iff, decide_eq_false_iff_not]
      omega
    rw [fetchHour, if_neg (by simp [hb])]

/-- The method string `GET` used by the proxy witness. -/
def getMethod : String := "GET"

/-- A concrete upstream failure response used by the proxy theorems. -/
def uEx : UpstreamResp := { status := 503, contentType := none, body := [] }

/-- Counterexample to C9 as stated: an inbound `OPTIONS` request to the
path-based proxy is answered with status 204 — not the upstream's status
(here 503) — and without any `Cache-Control` header, because the pre-flight
branch short-circuits before contacting the upstream. -/
theorem options_request_not_relayed :
    (handlerPath optionsMethod uEx).status = 204 ∧
    (handlerPath optionsMethod uEx).status ≠ uEx.status ∧
    getHeader (handlerPath optionsMethod uEx) hdrCacheControl = none :=
  ⟨rfl, by decide, rfl⟩

/-- Claim C9 (corrected). For every non-`OPTIONS` inbound request to the
path-based proxy, and for every inbound request to the query-based proxy,
the response carries exactly the upstream's status code, a `Content-Type`
equal to the upstream's content-type or `application/json` when absent, a
permissive `Access-Control-Allow-Origin: *`, and `Cache-Control` and
`CDN-Cache-Control` both set to
`max-age=0, s-maxage=60, stale-while-revalidate=300`. (The amendment
excludes the path variant's `OPTIONS` pre-flight, which responds 204 with
only CORS headers and no upstream call.) -/
theorem proxy_relays_upstream (method : String) (u : UpstreamResp)
    (hm : method ≠ optionsMethod) :
    ((handlerPath method u).status = u.status ∧
     getHeader (handlerPath method u) hdrContentType = some (u.contentType.getD appJson) ∧
     getHeader (handlerPath method u) hdrAllowOrigin = some starValue ∧
     getHeader (handlerPath method u) hdrCacheControl = some ccValue ∧
     getHeader (handlerPath method u) hdrCdnCacheControl = some ccValue) ∧
    ((handlerQuery u).status = u.status ∧
     getHeader (handlerQuery u) hdrContentType = some (u.contentType.getD appJson) ∧
     getHeader (handlerQuery u) hdrAllowOrigin = some starValue ∧
     getHeader (handlerQuery u) hdrCacheControl = some ccValue ∧
     getHeader (handlerQuery u) hdrCdnCacheControl = some ccValue) := by
  have hp : handlerPath method u = handlerQuery u := by
    rw [handlerPath, if_neg hm, handlerQuery]
  rw [hp]
  exact ⟨⟨rfl, rfl, rfl, rfl, rfl⟩, ⟨rfl, rfl, rfl, rfl, rfl⟩⟩

/-- Witness for C9: a `GET` request relayed against a 503 upstream with no
content-type. -/
theorem proxy_relays_upstream_witness :
    getMethod ≠ optionsMethod ∧
    (((handlerPath getMethod uEx).status = uEx.status ∧
      getHeader (handlerPath getMethod uEx) hdrContentType =
        some (uEx.contentType.getD appJson) ∧
      getHeader (handlerPath getMethod uEx) hdrAllowOrigin = some starValue ∧
      getHeader (handlerPath getMethod uEx) hdrCacheControl = some ccValue ∧
      getHeader (handlerPath getMethod uEx) hdrCdnCacheControl = some ccValue) ∧
     ((handlerQuery uEx).status = uEx.status ∧
      getHeader (handlerQuery uEx) hdrContentType = some (uEx.contentType.getD appJson) ∧
      getHeader (handlerQuery uEx) hdrAllowOrigin = some starValue ∧
      getHeader (handlerQuery uEx) hdrCacheControl = some ccValue ∧
      getHeader (handlerQuery uEx) hdrCdnCacheControl = some ccValue)) :=
  ⟨by decide, proxy_relays_upstream getMethod uEx (by decide)⟩

/-- Claim C10 (confirmed). For any fixed assignment of per-slot outcomes,
a complete uncancelled run of the progressive orchestrator and the
`Promise.all` orchestrator produce the same final byHour value: 24
entries, entry i holding hour i's fetched list on success and the empty
list on failure. -/
theorem variants_agree_on_final_byHour (o : Fin 24 → Option (List Point))
    (order : List (Fin 24)) (hlen : order.length = 24) (hnd : order.Nodup) :
    (runCycle o order).byHour = (runCycle0 o).byHour := by
  rw [runCycle_byHour o order (all_mem_of_nodup_of_length hnd hlen)]
  rfl

/-- Witness for C10: both variants agree on the outcome assignment `oEx`
(hour 3 fails, the others succeed), settled in hour order. -/
theorem variants_agree_on_final_byHour_witness :
    (List.finRange 24).length = 24 ∧ (List.finRange 24).Nodup ∧
    (runCycle oEx (List.finRange 24)).byHour = (runCycle0 oEx).byHour :=
  ⟨by simp, by decide,
   variants_agree_on_final_byHour oEx (List.finRange 24) (by simp) (by decide)⟩

end Balloons
